import Mathlib

/-!
Verification development for the RAGify frontend
(`ragify-frontend/ragify-working/src/app/page.tsx` and `src/lib/api.ts`).

The code under scrutiny is a React client.  We shallowly embed the parts
with observable logic:

* the answer formatter `formatAnswer` — a pure transform from the raw
  answer string to a sequence of display blocks (headings, paragraphs,
  bullet lists, numbered lists);
* the session-state operations `handleFiles`, `handleProcess`,
  `handleAsk`, `handleResetDatabase`, with the external REST calls
  modelled as oracle functions returning `Except String α`
  (a thrown error is `.error`, a 2xx JSON payload is `.ok`), and
  `Math.random()`-generated identifiers supplied as explicit inputs.

JavaScript string primitives (`trim`, `split`, the regexes used by the
formatter) are modelled character-exactly; each definition has a comment
pointing at the construct it translates.
-/

namespace Ragify

/-- JavaScript whitespace (`\s`, and the set used by `String.prototype.trim`):
WhiteSpace (TAB, VT, FF, SP, NBSP, ZWNBSP, Unicode Zs) plus line
terminators (LF, CR, LS, PS). -/
def jsWS (c : Char) : Bool :=
  c == ' ' || c == '\t' || c == '\n' || c == '\x0b' || c == '\x0c' || c == '\r' ||
  c == '\u00A0' || c == '\u1680' || (0x2000 ≤ c.toNat && c.toNat ≤ 0x200A) ||
  c == '\u2028' || c == '\u2029' || c == '\u202F' || c == '\u205F' ||
  c == '\u3000' || c == '\uFEFF' 

/-- Remove leading and trailing JS whitespace from a character list. -/
def trimChars (cs : List Char) : List Char :=
  ((cs.dropWhile jsWS).reverse.dropWhile jsWS).reverse

/-- Model of JavaScript `String.prototype.trim`. -/
def jsTrim (s : String) : String :=
  String.mk (trimChars s.data)

/-- `pat` is a prefix of `cs` (character-exact). -/
def prefixChars : List Char → List Char → Bool
  | [], _ => true
  | _ :: _, [] => false
  | a :: as, b :: bs => a == b && prefixChars as bs

/-- `pat` occurs as a contiguous substring of `cs`. -/
def subChars (pat : List Char) : List Char → Bool
  | [] => prefixChars pat []
  | c :: cs => prefixChars pat (c :: cs) || subChars pat (cs)

/-- Model of JavaScript `String.prototype.includes`. -/
def strContains (s pat : String) : Bool :=
  subChars pat.data s.data

/-- Split a character list at every `'\n'` (model of JS `split('\n')`,
which keeps empty pieces). `acc` holds the current piece reversed. -/
def splitLinesAux : List Char → List Char → List String
  | acc, [] => [String.mk acc.reverse]
  | acc, '\n' :: rest => String.mk acc.reverse :: splitLinesAux [] rest
  | acc, c :: rest => splitLinesAux (c :: acc) rest

/-- Model of JavaScript `String.prototype.split('\n')`. -/
def splitLines (s : String) : List String :=
  splitLinesAux [] s.data

/-- Model of JavaScript `Array.prototype.join(sep)`. -/
def joinSep (sep : String) : List String → String
  | [] => ""
  | [s] => s
  | s :: rest => s ++ sep ++ joinSep sep rest

/-- Model of `text.split(/\n\s*\n/)` (page.tsx line 232) for input with no
leading or trailing whitespace (the call site trims first).

JS regex-split scans left to right for the leftmost match of
`\n\s*\n`: a newline, a greedy run of whitespace, and a final newline
(the greedy `\s*` backtracks so that the match ends at the last newline
of the maximal whitespace run).  A position matches exactly when the
maximal whitespace run following a newline itself contains a newline,
i.e. when the raw line after it is whitespace-only; the separator then
swallows every whitespace-only raw line of the blank run together with
the newlines bounding the run.  Hence, on input whose first and last raw
lines are not whitespace-only, the split pieces are precisely the
maximal runs of raw lines that are not whitespace-only, re-joined with
`"\n"` (each line keeping its own inner/edge spaces).  We implement that
characterisation structurally. -/
def splitSections (text : String) : List String :=
  let rawLines := splitLines text
  let groups : List (List String) := rawLines.foldr
    (fun l acc =>
      if jsTrim l = "" then [] :: acc
      else
        match acc with
        | [] => [[l]]
        | g :: gs => (l :: g) :: gs)
    []
  groups.map (joinSep "\n")

/-- Display block produced by the formatter: the rendered `<h3>`, `<p>`,
`<ul>`/`<li>` and `<ol>`/`<li>` structure of `formatAnswer`, with
styling stripped. -/
inductive Block where
  | heading (text : String)
  | para (text : String)
  | bulletList (items : List String)
  | numberedList (items : List String)
deriving Repr, DecidableEq

/-- Attempt to match the regex `\*\*([^*]+)\*\*` anchored at the head of
`cs`: two asterisks, a non-empty run of non-asterisk characters, two
asterisks.  Returns the captured inner text and the characters after the
match.  (The greedy `[^*]+` cannot backtrack usefully: every character it
gives back is a non-asterisk, so the following `\*\*` can only match at
the end of the maximal non-asterisk run.) -/
def headerAt : List Char → Option (List Char × List Char)
  | '*' :: '*' :: rest =>
    let inner := rest.takeWhile (fun c => c != '*')
    let rem := rest.dropWhile (fun c => c != '*')
    if inner.isEmpty then none
    else
      match rem with
      | '*' :: '*' :: tail => some (inner, tail)
      | _ => none
  | _ => none

/-- Leftmost match of `\*\*([^*]+)\*\*` in `cs`
(model of `line.match(/\*\*([^*]+)\*\*/)`, which scans start positions
left to right).  Returns `(before, inner, after)` where `before` is the
text before the match and `after` the text after it. -/
def findHeader : List Char → Option (List Char × List Char × List Char)
  | [] => none
  | c :: cs =>
    match headerAt (c :: cs) with
    | some (inner, tail) => some ([], inner, tail)
    | none =>
      match findHeader cs with
      | some (pre, inner, tail) => some (c :: pre, inner, tail)
      | none => none

/-- The string contains a complete `**…**` span. -/
def spanInString (s : String) : Bool :=
  (findHeader s.data).isSome

/-- JavaScript regex line terminators: the characters that `.` (without
the `s` flag) does NOT match — LF, CR, LS (U+2028), PS (U+2029).  Lines
reach the formatter split only on `'\n'` and trimmed, so an interior
`'\r'`, LS or PS can still occur inside a line. -/
def lineTerm (c : Char) : Bool :=
  c == '\n' || c == '\r' || c == '\u2028' || c == '\u2029'

/-- Shared tail of the bullet/number regexes: `\s+(.+)` applied to `rest`.
Greedy `\s+` takes the maximal whitespace run `w`; `(.+)` then needs at
least one character that is not a line terminator and captures the
maximal run of non-terminator characters (any later text on the line,
e.g. after an interior `'\r'`, is simply left unmatched — `match` does
not need to consume the whole string).  When `rest` is whitespace-only,
`\s+` backtracks from longest to shortest, so `(.+)` starts at the last
position `≥ 1` holding a non-terminator whitespace character; every
character after that position is a terminator, so the capture is that
single character.  If no such position exists there is no match. -/
def capTail (rest : List Char) : Option String :=
  let w := rest.takeWhile jsWS
  let r := rest.dropWhile jsWS
  if w.isEmpty then none
  else if !r.isEmpty then some (String.mk (r.takeWhile (fun c => !lineTerm c)))
  else
    match rest with
    | _ :: tail =>
      match (tail.filter (fun c => !lineTerm c)).getLast? with
      | some c => some (String.mk [c])
      | none => none
    | [] => none

/-- Model of `line.match(/^\s*[\*\-\•]\s+(.+)/)` (page.tsx line 302):
optional leading whitespace, one bullet marker, whitespace, captured rest. -/
def bulletMatch (line : String) : Option String :=
  match line.data.dropWhile jsWS with
  | c :: rest =>
    if c == '*' || c == '-' || c == '•' then capTail rest else none
  | [] => none

/-- Model of `line.match(/^\s*\d+\.\s+(.+)/)` (page.tsx line 357):
optional leading whitespace, digits, a dot, whitespace, captured rest.
The `.` must follow the maximal digit run (any shorter split leaves a
digit where the literal `.` is required). -/
def numberMatch (line : String) : Option String :=
  let cs := line.data.dropWhile jsWS
  let ds := cs.takeWhile Char.isDigit
  if ds.isEmpty then none
  else
    match cs.dropWhile Char.isDigit with
    | '.' :: rest => capTail rest
    | _ => none

/-- One iteration of the header branch (page.tsx lines 247-276): state is
the emitted elements plus the pending `currentContent` buffer.  A line
containing `"**"` flushes the buffer (when its trim is non-empty); if the
line has a complete span, a heading is emitted and the trimmed remainder
of the line (span removed) is appended to the buffer with a trailing
space; otherwise nothing more happens.  A line without `"**"` is appended
to the buffer with a trailing space. -/
def headerStep (acc : List Block × String) (line : String) : List Block × String :=
  let els := acc.1
  let buf := acc.2
  if strContains line "**" then
    let els1 := if jsTrim buf = "" then els else els ++ [Block.para (jsTrim buf)]
    let buf1 := if jsTrim buf = "" then buf else ""
    match findHeader line.data with
    | some (pre, inner, tail) =>
      let afterHeader := jsTrim (String.mk (pre ++ tail))
      (els1 ++ [Block.heading (String.mk inner)],
        if afterHeader = "" then buf1 else buf1 ++ afterHeader ++ " ")
    | none => (els1, buf1)
  else (els, buf ++ line ++ " ")

/-- Final flush of the header branch (page.tsx lines 279-285): emit the
remaining buffer as a paragraph when its trim is non-empty. -/
def finishBlocks (out : List Block × String) : List Block :=
  if jsTrim out.2 = "" then out.1 else out.1 ++ [Block.para (jsTrim out.2)]

/-- Header branch of `formatAnswer`: fold the lines, then flush the final
buffer (page.tsx lines 242-291). -/
def headerBlocks (lines : List String) : List Block :=
  finishBlocks (lines.foldl headerStep ([], ""))

/-- Item pushed while scanning a bullet/numbered section, in encounter
order: a flushed paragraph (`<p>`) or a list item (`<li>`). -/
inductive BItem where
  | p (s : String)
  | li (s : String)
deriving Repr, DecidableEq

/-- One iteration of the bullet branch (page.tsx lines 301-322). -/
def bulletStep (acc : List BItem × String) (line : String) : List BItem × String :=
  let items := acc.1
  let buf := acc.2
  match bulletMatch line with
  | some item =>
    let items1 := if jsTrim buf = "" then items else items ++ [BItem.p (jsTrim buf)]
    let buf1 := if jsTrim buf = "" then buf else ""
    (items1 ++ [BItem.li item], buf1)
  | none => (items, buf ++ line ++ " ")

/-- Final flush of a bullet/numbered scan (page.tsx lines 324-331):
emit the remaining buffer as a `p` item when its trim is non-empty. -/
def finishItems (out : List BItem × String) : List BItem :=
  if jsTrim out.2 = "" then out.1 else out.1 ++ [BItem.p (jsTrim out.2)]

/-- Scan of the bullet branch: fold plus final flush (page.tsx 298-331). -/
def bulletScan (lines : List String) : List BItem :=
  finishItems (lines.foldl bulletStep ([], ""))

/-- Texts of the non-`li` items, in order. -/
def pTexts (items : List BItem) : List String :=
  items.filterMap (fun it => match it with | BItem.p s => some s | BItem.li _ => none)

/-- Texts of the `li` items, in order. -/
def liTexts (items : List BItem) : List String :=
  items.filterMap (fun it => match it with | BItem.li s => some s | BItem.p _ => none)

/-- Bullet branch of `formatAnswer` (page.tsx lines 297-347): the render
first emits every non-`li` item (each its own paragraph), then — when
there is at least one `li` — a single `<ul>` with all the `li` items. -/
def bulletBlocks (lines : List String) : List Block :=
  let items := bulletScan lines
  (pTexts items).map Block.para ++
    (if (liTexts items).isEmpty then [] else [Block.bulletList (liTexts items)])

/-- One iteration of the numbered branch (page.tsx lines 356-376). -/
def numberStep (acc : List BItem × String) (line : String) : List BItem × String :=
  let items := acc.1
  let buf := acc.2
  match numberMatch line with
  | some item =>
    let items1 := if jsTrim buf = "" then items else items ++ [BItem.p (jsTrim buf)]
    let buf1 := if jsTrim buf = "" then buf else ""
    (items1 ++ [BItem.li item], buf1)
  | none => (items, buf ++ line ++ " ")

/-- Scan of the numbered branch: fold plus final flush (page.tsx 352-384). -/
def numberScan (lines : List String) : List BItem :=
  finishItems (lines.foldl numberStep ([], ""))

/-- Numbered branch of `formatAnswer` (page.tsx lines 352-399). -/
def numberBlocks (lines : List String) : List Block :=
  let items := numberScan lines
  (pTexts items).map Block.para ++
    (if (liTexts items).isEmpty then [] else [Block.numberedList (liTexts items)])

/-- The trimmed, non-empty lines of a section:
`section.split('\n').map(line => line.trim()).filter(line => line)`
(page.tsx line 235). -/
def sectionLines (sec : String) : List String :=
  ((splitLines sec).map jsTrim).filter (fun l => l != "")

/-- Per-section body of `formatAnswer` (page.tsx lines 234-409): empty
line list renders nothing; a section containing `"**"` anywhere takes the
header branch; otherwise a section with a bullet line takes the bullet
branch; otherwise a numbered line the numbered branch; otherwise the
lines are joined with single spaces into one paragraph. -/
def formatSection (sec : String) : List Block :=
  let lines := sectionLines sec
  if lines.isEmpty then []
  else if strContains sec "**" then headerBlocks lines
  else if lines.any (fun l => (bulletMatch l).isSome) then bulletBlocks lines
  else if lines.any (fun l => (numberMatch l).isSome) then numberBlocks lines
  else [Block.para (joinSep " " lines)]

/-- Model of `formatAnswer` (page.tsx lines 227-410).  The initial
`text.replace(/\*\*/g, '**')` replaces `"**"` with itself and is the
identity, leaving `text.trim()`.  Sections whose trim is empty are
dropped; each remaining section contributes its blocks in order. -/
def formatAnswer (text : String) : List Block :=
  let cleanText := jsTrim text
  let sections := (splitSections cleanText).filter (fun s => jsTrim s != "")
  (sections.map formatSection).flatten

/-! ## Session state and API data model (page.tsx lines 24-51, api.ts) -/

/-- `interface Document` (page.tsx lines 24-31).  `uploadedAt` (a JS
`Date`) is an opaque timestamp; the optional `processed` flag is a
`Bool` (JS `undefined` behaves as `false` at every use site). -/
structure Document where
  id : String
  name : String
  size : Nat
  uploadedAt : Nat
  temp_path : Option String
  processed : Bool
deriving Repr, DecidableEq

/-- `interface QnAItem` (page.tsx lines 33-38). -/
structure QnAItem where
  id : String
  question : String
  answer : String
  timestamp : Nat
deriving Repr, DecidableEq

/-- The `databaseStatus` state value (page.tsx line 49). -/
structure DatabaseStatus where
  count : Nat
  status : String
deriving Repr, DecidableEq

/-- `ProcessRequest` (api.ts lines 3-7). -/
structure ProcessRequest where
  file_path : String
  filename : String
  use_handwriting_ocr : Bool
deriving Repr, DecidableEq

/-- `ProcessResponse` (api.ts lines 9-16). -/
structure ProcessResponse where
  success : Bool
  message : String
  filename : String
  chunks_created : Nat
  processing_method : String
  total_characters : Option Nat
deriving Repr, DecidableEq

/-- `QueryRequest` (api.ts lines 18-21). -/
structure QueryRequest where
  query : String
  n_results : Option Nat
deriving Repr, DecidableEq

/-- `QueryResponse` (api.ts lines 23-30). -/
structure QueryResponse where
  success : Bool
  query : String
  answer : String
  retrieved_documents : List String
  relevant_document_ids : List Int
  context_used : String
deriving Repr, DecidableEq

/-- `StatusResponse` (api.ts lines 32-37). -/
structure StatusResponse where
  success : Bool
  document_count : Nat
  database_status : String
  message : String
deriving Repr, DecidableEq

/-- `ResetResponse` (api.ts lines 39-43). -/
structure ResetResponse where
  success : Bool
  message : String
  actions_performed : List String
deriving Repr, DecidableEq

/-- `UploadResponse` (api.ts lines 45-50). -/
structure UploadResponse where
  message : String
  filename : String
  temp_path : String
  size : Nat
deriving Repr, DecidableEq

/-- A browser `File` as used by `handleFiles`: only `name`, `type`
(the MIME type) and `size` are read. -/
structure InputFile where
  name : String
  mime : String
  size : Nat
deriving Repr, DecidableEq

/-- The component state hooks of `MainApp` (page.tsx lines 41-50). -/
structure AppState where
  documents : List Document
  question : String
  qnaHistory : List QnAItem
  isProcessing : Bool
  enableHandwriting : Bool
  dragActive : Bool
  currentAnswer : String
  isAsking : Bool
  databaseStatus : DatabaseStatus
  isUploading : Bool
deriving Repr, DecidableEq

/-- The `useState` initial values (page.tsx lines 41-50). -/
def initialState : AppState :=
  { documents := []
    question := ""
    qnaHistory := []
    isProcessing := false
    enableHandwriting := false
    dragActive := false
    currentAnswer := ""
    isAsking := false
    databaseStatus := { count := 0, status := "unknown" }
    isUploading := false }

/-- The oracle call returned without throwing. -/
def exOk {α : Type} : Except String α → Bool
  | .ok _ => true
  | .error _ => false

/-- The process oracle result is not a success response: either it threw
or the payload has `success: false`. -/
def notOkTrue : Except String ProcessResponse → Bool
  | .ok r => !r.success
  | .error _ => true

/-! ## handleFiles (page.tsx lines 98-128) -/

/-- The filter of `handleFiles` (page.tsx lines 99-103): MIME type is
exactly `"application/pdf"` and size is at most `200 * 1024 * 1024`. -/
def isValidFile (f : InputFile) : Bool :=
  f.mime == "application/pdf" && f.size ≤ 200 * 1024 * 1024

/-- Result of a `handleFiles` run: the final state, the files actually
passed to the upload call (in call order), and the `console.error`
messages. -/
structure FilesOutcome where
  state : AppState
  calls : List InputFile
  log : List String
deriving Repr, DecidableEq

/-- The sequential upload loop of `handleFiles` (page.tsx lines 107-125).
`ids` supplies the values of `Math.random().toString(36).substring(2, 9)`,
one consumed per successful upload; `now` stands for `new Date()`.
Returns `(documents, remaining ids, upload calls, log)`. -/
def uploadLoop (upl : InputFile → Except String UploadResponse) (now : Nat) :
    List InputFile → List Document → List String →
    List Document × List String × List InputFile × List String
  | [], docs, ids => (docs, ids, [], [])
  | f :: fs, docs, ids =>
    match upl f with
    | .ok resp =>
      let doc : Document :=
        { id := ids.headD ""
          name := f.name
          size := f.size
          uploadedAt := now
          temp_path := some resp.temp_path
          processed := false }
      let out := uploadLoop upl now fs (docs ++ [doc]) ids.tail
      (out.1, out.2.1, f :: out.2.2.1, out.2.2.2)
    | .error e =>
      let out := uploadLoop upl now fs docs ids
      (out.1, out.2.1, f :: out.2.2.1,
        ("Failed to upload " ++ f.name ++ ": " ++ e) :: out.2.2.2)

/-- Model of `handleFiles` (page.tsx lines 98-128): filter to valid
files, set the uploading flag, upload sequentially (a failed upload is
logged and the loop continues), clear the flag. -/
def handleFiles (upl : InputFile → Except String UploadResponse)
    (ids : List String) (now : Nat) (s : AppState) (files : List InputFile) :
    FilesOutcome :=
  let validFiles := files.filter isValidFile
  let s1 := { s with isUploading := true }
  let out := uploadLoop upl now validFiles s1.documents ids
  { state := { s1 with documents := out.1, isUploading := false }
    calls := out.2.2.1
    log := out.2.2.2 }

/-! ## handleProcess (page.tsx lines 130-163) -/

/-- The request `handleProcess` builds for a document (page.tsx 138-142),
when the document has a `temp_path`. -/
def reqOf (hw : Bool) (d : Document) : Option ProcessRequest :=
  d.temp_path.map (fun tp =>
    { file_path := tp, filename := d.name, use_handwriting_ocr := hw })

/-- Result of the processing loop: current documents, requests issued in
order, and the thrown error if one occurred. -/
structure LoopOut where
  docs : List Document
  calls : List ProcessRequest
  err : Option String
deriving Repr, DecidableEq

/-- The sequential loop of `handleProcess` (page.tsx lines 136-151) over
the snapshot `pending` of unprocessed documents.  A successful response
with `success: true` marks the document processed (by id, via the
functional `setDocuments` update); a response with `success: false`
changes nothing; a thrown error aborts the loop which keeps the updates
already applied. -/
def processLoop (oracle : ProcessRequest → Except String ProcessResponse)
    (hw : Bool) : List Document → List Document → LoopOut
  | docs, [] => { docs := docs, calls := [], err := none }
  | docs, d :: rest =>
    match d.temp_path with
    | none => processLoop oracle hw docs rest
    | some tp =>
      let req : ProcessRequest :=
        { file_path := tp, filename := d.name, use_handwriting_ocr := hw }
      match oracle req with
      | .error e => { docs := docs, calls := [req], err := some e }
      | .ok resp =>
        let docs1 :=
          if resp.success then
            docs.map (fun x => if x.id == d.id then { x with processed := true } else x)
          else docs
        let out := processLoop oracle hw docs1 rest
        { docs := out.docs, calls := req :: out.calls, err := out.err }

/-- The snapshot `documents.filter(doc => !doc.processed && doc.temp_path)`
(page.tsx line 134). -/
def pendPred (d : Document) : Bool :=
  !d.processed && d.temp_path.isSome

/-- The pending documents of a state. -/
def pendingDocs (s : AppState) : List Document :=
  s.documents.filter pendPred

/-- Result of a `handleProcess` run: final state, process requests
issued, whether the `getStatus` refresh was reached, and the
`console.error` messages. -/
structure ProcessOutcome where
  state : AppState
  calls : List ProcessRequest
  statusCalled : Bool
  log : List String
deriving Repr, DecidableEq

/-- Model of `handleProcess` (page.tsx lines 130-163).  The `getStatus`
call sits inside the `try` after the loop, so it is reached only when no
process call threw; any thrown error lands in the `catch` (logged), and
the `finally` clears `isProcessing`. -/
def handleProcess (oracle : ProcessRequest → Except String ProcessResponse)
    (statusO : Except String StatusResponse) (s : AppState) : ProcessOutcome :=
  let s1 := { s with isProcessing := true }
  let out := processLoop oracle s1.enableHandwriting s1.documents (pendingDocs s1)
  match out.err with
  | some e =>
    { state := { s1 with documents := out.docs, isProcessing := false }
      calls := out.calls
      statusCalled := false
      log := ["Processing failed: " ++ e] }
  | none =>
    match statusO with
    | .ok st =>
      { state :=
          { s1 with
            documents := out.docs
            databaseStatus := { count := st.document_count, status := st.database_status }
            isProcessing := false }
        calls := out.calls
        statusCalled := true
        log := [] }
    | .error e =>
      { state := { s1 with documents := out.docs, isProcessing := false }
        calls := out.calls
        statusCalled := true
        log := ["Processing failed: " ++ e] }

/-! ## handleResetDatabase (page.tsx lines 165-182) -/

/-- Model of `handleResetDatabase`.  On a response with `success: true`
the document list, Q&A history and current answer are cleared and a
status refresh is attempted — `getStatus` is inside the same `try`, so a
thrown status error is caught by the same `catch` (logged), leaving the
already-cleared state.  A response with `success: false` does nothing at
all; a thrown reset error only logs.  Returns the new state and the
`console.error` messages. -/
def handleResetDatabase (resetO : Except String ResetResponse)
    (statusO : Except String StatusResponse) (s : AppState) :
    AppState × List String :=
  match resetO with
  | .error e => (s, ["Reset failed: " ++ e])
  | .ok r =>
    if r.success then
      let s1 := { s with documents := [], qnaHistory := [], currentAnswer := "" }
      match statusO with
      | .ok st =>
        ({ s1 with databaseStatus := { count := st.document_count, status := st.database_status } }, [])
      | .error e => (s1, ["Reset failed: " ++ e])
    else (s, [])

/-! ## handleAsk (page.tsx lines 184-217) -/

/-- The fixed answer shown when the query payload has `success: false`
(page.tsx line 209). -/
def notFoundMessage : String :=
  "Sorry, I couldn\x27t find relevant information in your documents."

/-- The fixed answer shown when the query call throws (page.tsx 213). -/
def errorMessage : String :=
  "An error occurred while processing your question. Please try again."

/-- Model of `handleAsk` (page.tsx lines 184-217).  A blank question is a
no-op.  Otherwise the input field is cleared, the query is issued with
`n_results: 10`; on `success: true` the answer is stored and a new
`QnAItem` (fresh id `idv`, timestamp `now`) is prepended to the history;
on `success: false` only the fixed not-found message is stored; on a
thrown error the fixed error message is stored and the error logged.
`isAsking` is set in `finally`.  Returns the new state and the
`console.error` messages. -/
def handleAsk (oracle : QueryRequest → Except String QueryResponse)
    (idv : String) (now : Nat) (s : AppState) : AppState × List String :=
  if jsTrim s.question = "" then (s, [])
  else
    let s1 := { s with isAsking := true }
    let newQuestion := s1.question
    let s2 := { s1 with question := "" }
    match oracle { query := newQuestion, n_results := some 10 } with
    | .ok resp =>
      if resp.success then
        let item : QnAItem :=
          { id := idv, question := newQuestion, answer := resp.answer, timestamp := now }
        ({ s2 with
            currentAnswer := resp.answer
            qnaHistory := item :: s2.qnaHistory
            isAsking := false }, [])
      else
        ({ s2 with currentAnswer := notFoundMessage, isAsking := false }, [])
    | .error e =>
      ({ s2 with currentAnswer := errorMessage, isAsking := false },
        ["Query failed: " ++ e])

/-! ## Claim-side reference formulations

The next functions transcribe the CLAIMS' narrative of the formatter (a
pending paragraph buffer that is flushed around headings and around
bullet runs).  They are deliberately written as plain structural
recursions in the claims' terms; the theorems below relate them to the
source-derived `headerBlocks`/`bulletBlocks`. -/

/-- Append a line to a pending paragraph buffer (text joined by single
spaces). -/
def pushBuf (b l : String) : String :=
  if b = "" then l else b ++ " " ++ l

/-- Flush a pending paragraph buffer: a non-empty buffer becomes one
Paragraph block. -/
def flushBuf (b : String) : List Block :=
  if b = "" then [] else [Block.para b]

/-- Header-section processing as the (amended) claim narrates it: lines
in order; a line without `"**"` accumulates; a line containing `"**"`
flushes the non-empty buffer as a Paragraph and, when it carries a
complete `**…**` span, emits a Heading with the first span's inner text,
the trimmed trailing text (span removed) becoming the new buffer
content; a line containing `"**"` without a complete span contributes
nothing further; at the end a non-empty buffer is flushed as a final
Paragraph. -/
def claimHeaderRun : List String → String → List Block
  | [], b => flushBuf b
  | l :: ls, b =>
    if strContains l "**" then
      match findHeader l.data with
      | some (pre, inner, tail) =>
        let after := jsTrim (String.mk (pre ++ tail))
        flushBuf b ++ [Block.heading (String.mk inner)] ++
          claimHeaderRun ls (if after = "" then "" else after)
      | none => flushBuf b ++ claimHeaderRun ls ""
    else claimHeaderRun ls (pushBuf b l)

/-- Flush a pending buffer as a list of paragraph texts. -/
def flushTexts (b : String) : List String :=
  if b = "" then [] else [b]

/-- Bullet-section processing as the (amended) claim narrates it:
returns the paragraph texts (one per maximal run of non-bullet lines, in
order) and the bullet items (marker stripped, in order). -/
def claimBulletRun : List String → String → List String × List String
  | [], b => (flushTexts b, [])
  | l :: ls, b =>
    match bulletMatch l with
    | some item =>
      let out := claimBulletRun ls ""
      (flushTexts b ++ out.1, item :: out.2)
    | none => claimBulletRun ls (pushBuf b l)

/-- Blocks of a bullet section per the (amended) claim: all paragraph
blocks first, then — when any bullet item exists — a single BulletList
with every item. -/
def claimBulletBlocks (lines : List String) : List Block :=
  let out := claimBulletRun lines ""
  out.1.map Block.para ++ (if out.2.isEmpty then [] else [Block.bulletList out.2])

/-! ## Buffer bookkeeping used by the equivalence proofs -/

/-- The source buffer corresponding to claim-side pending text `b`: the
source keeps a trailing separator space after each appended piece. -/
def encBuf (b : String) : String :=
  if b = "" then "" else b ++ " "

/-- A character list that is non-empty and has no JS whitespace at
either edge. -/
def noWSEdge (cs : List Char) : Prop :=
  cs ≠ [] ∧ (∀ c, cs.head? = some c → jsWS c = false) ∧
    (∀ c, cs.reverse.head? = some c → jsWS c = false)

/-- Well-formed claim-side buffer: empty, or trimmed on both edges. -/
def goodBuf (b : String) : Prop :=
  b = "" ∨ noWSEdge b.data

/-- A line as produced by `sectionLines`: trimmed and non-empty. -/
def trimmedNE (l : String) : Prop :=
  jsTrim l = l ∧ l ≠ ""

/-! ## Concrete inputs used by witnesses and counterexamples -/

/-- A 10 MB PDF (valid). -/
def pdf10W : InputFile :=
  { name := "report.pdf", mime := "application/pdf", size := 10 * 1024 * 1024 }

/-- A 5 MB plain-text file (wrong MIME type). -/
def txt5W : InputFile :=
  { name := "notes.txt", mime := "text/plain", size := 5 * 1024 * 1024 }

/-- A 250 MB PDF (too large). -/
def pdf250W : InputFile :=
  { name := "big.pdf", mime := "application/pdf", size := 250 * 1024 * 1024 }

/-- An upload oracle that always succeeds. -/
def uplOkW : InputFile → Except String UploadResponse :=
  fun f => .ok { message := "File uploaded", filename := f.name,
                 temp_path := "/tmp/" ++ f.name, size := f.size }

/-- An unprocessed uploaded document. -/
def docW : Document :=
  { id := "d1", name := "a.pdf", size := 100, uploadedAt := 0,
    temp_path := some "/tmp/a.pdf", processed := false }

/-- A second unprocessed uploaded document. -/
def docW2 : Document :=
  { id := "d2", name := "b.pdf", size := 200, uploadedAt := 0,
    temp_path := some "/tmp/b.pdf", processed := false }

/-- A process oracle that always throws. -/
def procFailO : ProcessRequest → Except String ProcessResponse :=
  fun _ => .error "boom"

/-- A process oracle that always returns a `success: false` payload. -/
def procOkFalseO : ProcessRequest → Except String ProcessResponse :=
  fun _ => .ok { success := false, message := "no text extracted",
                 filename := "", chunks_created := 0,
                 processing_method := "standard", total_characters := none }

/-- A successful status payload distinct from the initial status. -/
def statusOkW : StatusResponse :=
  { success := true, document_count := 7, database_status := "ready", message := "ok" }

/-- A history entry. -/
def qnaW : QnAItem :=
  { id := "q1", question := "what?", answer := "that", timestamp := 0 }

/-- A state holding two unprocessed documents. -/
def sProcW : AppState :=
  { initialState with documents := [docW, docW2] }

/-- A populated state before a reset. -/
def sResetW : AppState :=
  { initialState with
    documents := [docW]
    qnaHistory := [qnaW]
    currentAnswer := "prev answer"
    databaseStatus := { count := 3, status := "healthy" } }

/-- A successful reset payload. -/
def resetOkW : ResetResponse :=
  { success := true, message := "reset", actions_performed := [] }

/-- A query oracle that echoes the query in a successful answer. -/
def queryOkW : QueryRequest → Except String QueryResponse :=
  fun r => .ok { success := true, query := r.query, answer := "the answer",
                 retrieved_documents := [], relevant_document_ids := [],
                 context_used := "" }

/-- A state with a typed, non-blank question. -/
def sAskW : AppState :=
  { initialState with question := "what is this?" }

/-! ## Whitespace and trim lemmas -/

/-- The head of a `dropWhile` result does not satisfy the predicate. -/
theorem dropWhile_head_false (p : Char → Bool) :
    ∀ (l : List Char) (h : Char) (t : List Char),
      l.dropWhile p = h :: t → p h = false := by
  intro l
  induction l with
  | nil => intro h t hw; simp [List.dropWhile] at hw
  | cons a l ih =>
    intro h t hw
    rw [List.dropWhile_cons] at hw
    by_cases hp : p a = true
    · exact ih h t (by rwa [if_pos hp] at hw)
    · rw [if_neg hp] at hw
      cases hw
      exact Bool.eq_false_iff.mpr hp

/-- `dropWhile` is the identity when the head does not satisfy the
predicate. -/
theorem dropWhile_eq_self_of_head (p : Char → Bool) (l : List Char)
    (h : ∀ c, l.head? = some c → p c = false) : l.dropWhile p = l := by
  cases l with
  | nil => rfl
  | cons a t =>
    rw [List.dropWhile_cons, if_neg]
    simp [h a rfl]

/-- The head of a non-empty list prefix decides the head of an append. -/
theorem head?_append_left {α : Type} (l m : List α) (h : l ≠ []) :
    (l ++ m).head? = l.head? := by
  cases l with
  | nil => exact absurd rfl h
  | cons a t => rfl

/-- Trimming a list with clean edges is the identity. -/
theorem trimChars_of_noWSEdge (cs : List Char) (h : noWSEdge cs) :
    trimChars cs = cs := by
  obtain ⟨hne, hhd, hlast⟩ := h
  unfold trimChars
  rw [dropWhile_eq_self_of_head jsWS cs hhd,
    dropWhile_eq_self_of_head jsWS cs.reverse hlast, List.reverse_reverse]

/-- A trimmed list is empty or has clean edges. -/
theorem noWSEdge_trimChars (cs : List Char) :
    trimChars cs = [] ∨ noWSEdge (trimChars cs) := by
  unfold trimChars
  cases he : (cs.dropWhile jsWS).reverse.dropWhile jsWS with
  | nil => exact Or.inl rfl
  | cons h t =>
    refine Or.inr ⟨by simp, ?_, ?_⟩
    · -- head of `(h :: t).reverse`: it is also the head of `cs.dropWhile jsWS`
      intro c hc
      have hd : cs.dropWhile jsWS = (h :: t).reverse ++
          ((cs.dropWhile jsWS).reverse.takeWhile jsWS).reverse := by
        have := List.takeWhile_append_dropWhile (p := jsWS)
          (l := (cs.dropWhile jsWS).reverse)
        rw [he] at this
        calc cs.dropWhile jsWS
            = (cs.dropWhile jsWS).reverse.reverse := by rw [List.reverse_reverse]
          _ = (((cs.dropWhile jsWS).reverse.takeWhile jsWS) ++ (h :: t)).reverse := by
              rw [this]
          _ = _ := by rw [List.reverse_append]
      have hne : (h :: t).reverse ≠ [] := by simp
      have hhd : (cs.dropWhile jsWS).head? = ((h :: t).reverse).head? := by
        rw [hd, head?_append_left _ _ hne]
      cases hdw : cs.dropWhile jsWS with
      | nil =>
        rw [hdw] at hd
        exact absurd hd.symm (by simp)
      | cons a t' =>
        have ha := dropWhile_head_false jsWS cs a t' hdw
        rw [hdw] at hhd
        have : some a = some c := hhd.trans hc
        cases this
        exact ha
    · -- head of `(h :: t).reverse.reverse = h :: t` comes from a `dropWhile`
      intro c hc
      rw [List.reverse_reverse] at hc
      cases hc
      exact dropWhile_head_false jsWS (cs.dropWhile jsWS).reverse h t he

/-- Trimming `cs ++ [' ']` recovers `cs` when `cs` has clean edges. -/
theorem trimChars_append_space (cs : List Char) (h : noWSEdge cs) :
    trimChars (cs ++ [' ']) = cs := by
  obtain ⟨hne, hhd, hlast⟩ := h
  unfold trimChars
  have hfront : (cs ++ [' ']).dropWhile jsWS = cs ++ [' '] := by
    apply dropWhile_eq_self_of_head
    intro c hc
    rw [head?_append_left _ _ hne] at hc
    exact hhd c hc
  rw [hfront, List.reverse_append]
  have h1 : ([' '] : List Char).reverse ++ cs.reverse = ' ' :: cs.reverse := by simp
  have h2 : (' ' :: cs.reverse).dropWhile jsWS = cs.reverse.dropWhile jsWS := by
    rw [List.dropWhile_cons, if_pos (by decide : jsWS ' ' = true)]
  rw [h1, h2, dropWhile_eq_self_of_head jsWS cs.reverse hlast, List.reverse_reverse]

/-- A string is empty iff its character list is. -/
theorem data_eq_nil_iff (s : String) : s.data = [] ↔ s = "" := by
  constructor
  · intro h; exact String.ext h
  · intro h; rw [h]

/-- Unfolding `jsTrim` at the data level. -/
theorem data_jsTrim (s : String) : (jsTrim s).data = trimChars s.data := rfl

/-- A trimmed non-empty string has clean edges. -/
theorem noWSEdge_of_trimmedNE (l : String) (h : trimmedNE l) : noWSEdge l.data := by
  obtain ⟨h1, h2⟩ := h
  have hd : trimChars l.data = l.data := by
    have := congrArg String.data h1
    rwa [data_jsTrim] at this
  rcases noWSEdge_trimChars l.data with hnil | hed
  · rw [hd] at hnil
    exact absurd ((data_eq_nil_iff l).mp hnil) h2
  · rwa [hd] at hed

/-- `jsTrim` is the identity on strings with clean edges. -/
theorem jsTrim_eq_self (s : String) (h : noWSEdge s.data) : jsTrim s = s :=
  String.ext (trimChars_of_noWSEdge s.data h)

/-- `jsTrim` produces a well-formed buffer value. -/
theorem goodBuf_jsTrim (s : String) : goodBuf (jsTrim s) := by
  rcases noWSEdge_trimChars s.data with hnil | hed
  · exact Or.inl (String.ext (by rw [data_jsTrim, hnil]))
  · exact Or.inr (by rw [data_jsTrim]; exact hed)

/-- `jsTrim` is idempotent. -/
theorem jsTrim_idem (s : String) : jsTrim (jsTrim s) = jsTrim s := by
  rcases goodBuf_jsTrim s with h | h
  · rw [h]; rfl
  · exact jsTrim_eq_self _ h

/-- A well-formed buffer is non-empty iff its text is. -/
theorem goodBuf_ne_empty (b : String) (h : noWSEdge b.data) : b ≠ "" := by
  intro hb
  rw [hb] at h
  exact absurd rfl h.1

/-- Trimming the encoded source buffer recovers the claim-side text. -/
theorem jsTrim_encBuf (b : String) (h : goodBuf b) : jsTrim (encBuf b) = b := by
  rcases h with h | h
  · rw [h]; rfl
  · have hb : b ≠ "" := goodBuf_ne_empty b h
    have he : encBuf b = b ++ " " := by rw [encBuf, if_neg hb]
    rw [he]
    refine String.ext ?_
    rw [data_jsTrim]
    have : (b ++ " ").data = b.data ++ [' '] := by
      rw [String.data_append]
    rw [this]
    exact trimChars_append_space b.data h

/-- Appending one more piece to the encoded buffer. -/
theorem encBuf_push (b l : String) (hl : l ≠ "") :
    encBuf b ++ l ++ " " = encBuf (pushBuf b l) := by
  by_cases hb : b = ""
  · subst hb
    rw [encBuf, if_pos rfl, pushBuf, if_pos rfl, encBuf, if_neg hl]
    apply String.ext
    simp [String.data_append]
  · have hbl : b ++ " " ++ l ≠ "" := by
      intro h
      have := congrArg String.data h
      simp [String.data_append] at this
    rw [encBuf, if_neg hb, pushBuf, if_neg hb, encBuf, if_neg hbl]

/-- Edge-clean lists compose around any middle character. -/
theorem noWSEdge_append (a c : List Char) (x : Char)
    (ha : noWSEdge a) (hc : noWSEdge c) : noWSEdge (a ++ x :: c) := by
  obtain ⟨hane, hahd, _⟩ := ha
  obtain ⟨hcne, _, hclast⟩ := hc
  refine ⟨by simp [hane], ?_, ?_⟩
  · intro ch hch
    rw [head?_append_left _ _ hane] at hch
    exact hahd ch hch
  · intro ch hch
    rw [List.reverse_append, List.reverse_cons, List.append_assoc,
      head?_append_left _ _ (by simp [hcne])] at hch
    exact hclast ch hch

/-- Pushing a trimmed non-empty line preserves buffer well-formedness. -/
theorem goodBuf_push (b l : String) (hb : goodBuf b) (hl : trimmedNE l) :
    goodBuf (pushBuf b l) := by
  have hle := noWSEdge_of_trimmedNE l hl
  rcases hb with h | h
  · rw [pushBuf, if_pos h]
    exact Or.inr hle
  · have hbne := goodBuf_ne_empty b h
    rw [pushBuf, if_neg hbne]
    refine Or.inr ?_
    have hdata : (b ++ " " ++ l).data = b.data ++ ' ' :: l.data := by
      simp [String.data_append]
    rw [hdata]
    exact noWSEdge_append b.data l.data ' ' h hle

/-! ## Equivalence of the source fold with the claim-side recursion -/

/-- The header-branch fold computes the claim-side recursion: starting
from already-emitted blocks `els` and a well-formed pending text `b`
(encoded with its trailing space), finishing the fold appends exactly
`claimHeaderRun lines b`. -/
theorem headerRun_eq : ∀ (lines : List String) (b : String) (els : List Block),
    (∀ l ∈ lines, trimmedNE l) → goodBuf b →
    finishBlocks (lines.foldl headerStep (els, encBuf b)) =
      els ++ claimHeaderRun lines b := by
  intro lines
  induction lines with
  | nil =>
    intro b els _ hb
    rw [List.foldl_nil, finishBlocks, claimHeaderRun, jsTrim_encBuf b hb, flushBuf]
    by_cases h : b = ""
    · rw [if_pos h, if_pos h, List.append_nil]
    · rw [if_neg h, if_neg h]
  | cons l ls ih =>
    intro b els hl hb
    have hltr : trimmedNE l := hl l (List.mem_cons_self l ls)
    have hls : ∀ x ∈ ls, trimmedNE x := fun x hx => hl x (List.mem_cons_of_mem l hx)
    rw [List.foldl_cons]
    by_cases hc : strContains l "**" = true
    · -- flush, then heading (if a span matches) or nothing
      have htrim : jsTrim (encBuf b) = b := jsTrim_encBuf b hb
      simp only [headerStep, htrim, hc, if_true]
      cases hf : findHeader l.data with
      | some x =>
        obtain ⟨pre, inner, tail⟩ := x
        simp only
        set after := jsTrim (String.mk (pre ++ tail)) with hafter
        have hbufeq : (if after = "" then (if b = "" then encBuf b else "")
            else (if b = "" then encBuf b else "") ++ after ++ " ") =
            encBuf (if after = "" then "" else after) := by
          have hzero : (if b = "" then encBuf b else "") = "" := by
            by_cases hbe : b = ""
            · rw [if_pos hbe, hbe]; rfl
            · rw [if_neg hbe]
          rw [hzero]
          by_cases ha : after = ""
          · rw [if_pos ha, if_pos ha]; rfl
          · rw [if_neg ha, if_neg ha, encBuf, if_neg ha]
            apply String.ext
            simp [String.data_append]
        have hels : (if b = "" then els else els ++ [Block.para b]) =
            els ++ flushBuf b := by
          rw [flushBuf]
          by_cases hbe : b = ""
          · rw [if_pos hbe, if_pos hbe, List.append_nil]
          · rw [if_neg hbe, if_neg hbe]
        rw [hels, hbufeq]
        have hgood : goodBuf (if after = "" then "" else after) := by
          by_cases ha : after = ""
          · rw [if_pos ha]; exact Or.inl rfl
          · rw [if_neg ha, hafter]; exact goodBuf_jsTrim _
        rw [ih _ _ hls hgood, claimHeaderRun]
        simp only [hc, if_true, hf]
        rw [← hafter]
        simp [List.append_assoc]
      | none =>
        simp only
        have hels : (if b = "" then els else els ++ [Block.para b]) =
            els ++ flushBuf b := by
          rw [flushBuf]
          by_cases hbe : b = ""
          · rw [if_pos hbe, if_pos hbe, List.append_nil]
          · rw [if_neg hbe, if_neg hbe]
        have hzero : (if b = "" then encBuf b else "") = encBuf "" := by
          by_cases hbe : b = ""
          · rw [if_pos hbe, hbe]
          · rw [if_neg hbe]; rfl
        rw [hels, hzero, ih _ _ hls (Or.inl rfl), claimHeaderRun]
        simp only [hc, if_true, hf]
        rw [List.append_assoc]
    · -- plain accumulation
      have hcb : strContains l "**" = false := Bool.eq_false_iff.mpr hc
      simp only [headerStep, hcb, Bool.false_eq_true, if_false]
      rw [encBuf_push b l hltr.2,
        ih _ _ hls (goodBuf_push b l hb hltr), claimHeaderRun]
      simp only [hcb, Bool.false_eq_true, if_false]

/-- Paragraph texts distribute over item append. -/
theorem pTexts_append (x y : List BItem) :
    pTexts (x ++ y) = pTexts x ++ pTexts y :=
  List.filterMap_append ..

/-- List-item texts distribute over item append. -/
theorem liTexts_append (x y : List BItem) :
    liTexts (x ++ y) = liTexts x ++ liTexts y :=
  List.filterMap_append ..

/-- Definitional unfolding of `claimBulletRun` at a cons cell. -/
theorem claimBulletRun_cons (l : String) (ls : List String) (b : String) :
    claimBulletRun (l :: ls) b =
      match bulletMatch l with
      | some item =>
        (flushTexts b ++ (claimBulletRun ls "").1, item :: (claimBulletRun ls "").2)
      | none => claimBulletRun ls (pushBuf b l) := rfl

/-- The bullet-branch fold computes the claim-side recursion: paragraphs
and list items accumulated by the source scan extend `items` by exactly
the paragraph texts and bullet items that `claimBulletRun` collects. -/
theorem bulletRun_eq : ∀ (lines : List String) (b : String) (items : List BItem),
    (∀ l ∈ lines, trimmedNE l) → goodBuf b →
    pTexts (finishItems (lines.foldl bulletStep (items, encBuf b))) =
      pTexts items ++ (claimBulletRun lines b).1 ∧
    liTexts (finishItems (lines.foldl bulletStep (items, encBuf b))) =
      liTexts items ++ (claimBulletRun lines b).2 := by
  intro lines
  induction lines with
  | nil =>
    intro b items _ hb
    rw [List.foldl_nil, finishItems, claimBulletRun, jsTrim_encBuf b hb, flushTexts]
    by_cases h : b = ""
    · rw [if_pos h, if_pos h]
      constructor <;> simp
    · rw [if_neg h, if_neg h]
      constructor
      · rw [pTexts_append]; rfl
      · rw [liTexts_append]; simp [liTexts]
  | cons l ls ih =>
    intro b items hl hb
    have hltr : trimmedNE l := hl l (List.mem_cons_self l ls)
    have hls : ∀ x ∈ ls, trimmedNE x := fun x hx => hl x (List.mem_cons_of_mem l hx)
    rw [List.foldl_cons]
    have htrim : jsTrim (encBuf b) = b := jsTrim_encBuf b hb
    cases hm : bulletMatch l with
    | some item =>
      simp only [bulletStep, htrim, hm]
      have hitems : (if b = "" then items else items ++ [BItem.p b]) ++ [BItem.li item] =
          items ++ (flushTexts b).map BItem.p ++ [BItem.li item] := by
        rw [flushTexts]
        by_cases hbe : b = ""
        · rw [if_pos hbe, if_pos hbe]; simp
        · rw [if_neg hbe, if_neg hbe]; simp
      have hzero : (if b = "" then encBuf b else "") = encBuf "" := by
        by_cases hbe : b = ""
        · rw [if_pos hbe, hbe]
        · rw [if_neg hbe]; rfl
      rw [hitems, hzero]
      obtain ⟨ihp, ihl⟩ := ih "" (items ++ (flushTexts b).map BItem.p ++ [BItem.li item]) hls (Or.inl rfl)
      constructor
      · rw [ihp, claimBulletRun]
        simp only [hm]
        rw [pTexts_append, pTexts_append]
        have h1 : pTexts ((flushTexts b).map BItem.p) = flushTexts b := by
          rw [flushTexts]
          by_cases hbe : b = ""
          · rw [if_pos hbe]; rfl
          · rw [if_neg hbe]; rfl
        have h2 : pTexts [BItem.li item] = [] := rfl
        rw [h1, h2]
        simp
      · rw [ihl, claimBulletRun]
        simp only [hm]
        rw [liTexts_append, liTexts_append]
        have h1 : liTexts ((flushTexts b).map BItem.p) = [] := by
          rw [flushTexts]
          by_cases hbe : b = ""
          · rw [if_pos hbe]; rfl
          · rw [if_neg hbe]; rfl
        have h2 : liTexts [BItem.li item] = [item] := rfl
        rw [h1, h2]
        simp
    | none =>
      simp only [bulletStep, hm]
      rw [encBuf_push b l hltr.2]
      obtain ⟨ihp, ihl⟩ := ih (pushBuf b l) items hls (goodBuf_push b l hb hltr)
      constructor
      · rw [ihp, claimBulletRun_cons, hm]
      · rw [ihl, claimBulletRun_cons, hm]

/-! ## Bridging lemmas between sections and their line lists -/

/-- Every line produced by `sectionLines` is trimmed and non-empty. -/
theorem sectionLines_trimmedNE (sec : String) :
    ∀ l ∈ sectionLines sec, trimmedNE l := by
  intro l hl
  rw [sectionLines, List.mem_filter] at hl
  obtain ⟨hmem, hne⟩ := hl
  rw [List.mem_map] at hmem
  obtain ⟨x, _, hx⟩ := hmem
  refine ⟨?_, ?_⟩
  · rw [← hx, jsTrim_idem]
  · intro h
    rw [h] at hne
    simp at hne

/-- A successful `headerAt` means the list starts with two asterisks. -/
theorem headerAt_twoStars (cs : List Char) (x : List Char × List Char)
    (h : headerAt cs = some x) : prefixChars ['*', '*'] cs = true := by
  rw [headerAt.eq_def] at h
  split at h
  · simp [prefixChars]
  · simp at h

/-- Definitional unfolding of `findHeader` at a cons cell. -/
theorem findHeader_cons (c : Char) (cs : List Char) :
    findHeader (c :: cs) =
      match headerAt (c :: cs) with
      | some (inner, tail) => some ([], inner, tail)
      | none =>
        match findHeader cs with
        | some (pre, inner, tail) => some (c :: pre, inner, tail)
        | none => none := rfl

/-- A found header span implies the string contains `"**"`. -/
theorem subChars_of_findHeader :
    ∀ (cs : List Char) (x : List Char × List Char × List Char),
      findHeader cs = some x → subChars ['*', '*'] cs = true := by
  intro cs
  induction cs with
  | nil => intro x h; simp [findHeader] at h
  | cons c rest ih =>
    intro x h
    rw [findHeader_cons] at h
    rw [subChars, Bool.or_eq_true]
    cases ha : headerAt (c :: rest) with
    | some y => exact Or.inl (headerAt_twoStars _ y ha)
    | none =>
      rw [ha] at h
      cases hf : findHeader rest with
      | some z => exact Or.inr (ih z hf)
      | none => rw [hf] at h; simp at h

/-- A complete span in a section makes the source's `includes('**')`
check true. -/
theorem strContains_of_span (sec : String) (h : spanInString sec = true) :
    strContains sec "**" = true := by
  rw [spanInString, Option.isSome_iff_exists] at h
  obtain ⟨x, hx⟩ := h
  rw [strContains]
  exact subChars_of_findHeader sec.data x hx

/-!
C1 — header-bearing sections

The claim as frozen states that in a header-bearing section every line
without a header span accumulates into the pending paragraph buffer.
The source (page.tsx line 248) branches on `line.includes('**')`, so a
line that contains `"**"` without a complete `**…**` span flushes the
buffer and then contributes nothing: its text is dropped (the
`headerMatch` is `null`, so neither a heading nor trailing text is
emitted).  The claim is therefore *corrected*: such lines flush the
buffer and disappear; everything else is as the claim says, and the
claim's own example holds.
-/

/-- C1 (counterexample to the frozen wording): in the header-bearing
section `"**A**\nbody\n** bad\nmore"` the unbalanced line `"** bad"` is
dropped and splits the paragraph, so the output is NOT a single
accumulated paragraph `"body ** bad more"` after the heading — which is
what "non-header text accumulates into a pending buffer" predicts. -/
theorem c1_counterexample :
    formatAnswer "**A**\nbody\n** bad\nmore" =
      [Block.heading "A", Block.para "body", Block.para "more"] ∧
    formatAnswer "**A**\nbody\n** bad\nmore" ≠
      [Block.heading "A", Block.para "body ** bad more"] := by
  constructor
  · decide
  · decide

/-- C1 (amended): in every section that contains a complete
double-asterisk span, `format` processes the section's lines in order
with a pending buffer exactly as `claimHeaderRun` describes — a line
without `"**"` accumulates; a line containing `"**"` flushes the
non-empty buffer as a Paragraph and, when it carries a complete span,
emits a Heading with the span's inner text, its trimmed trailing text
(span removed) restarting the buffer; a line containing `"**"` without
a complete span contributes nothing further; a final non-empty buffer is
flushed as a Paragraph.  In particular
`format "**Summary**\nThis is the body."` yields exactly a Heading
`"Summary"` followed by a Paragraph `"This is the body."`. -/
theorem c1_header_sections :
    (∀ sec : String, spanInString sec = true →
      formatSection sec = claimHeaderRun (sectionLines sec) "") ∧
    formatAnswer "**Summary**\nThis is the body." =
      [Block.heading "Summary", Block.para "This is the body."] := by
  constructor
  · intro sec hspan
    have hcont := strContains_of_span sec hspan
    rw [formatSection]
    by_cases hemp : (sectionLines sec).isEmpty = true
    · rw [if_pos hemp]
      rw [List.isEmpty_iff] at hemp
      rw [hemp]
      rfl
    · rw [if_neg hemp, if_pos hcont, headerBlocks]
      have h := headerRun_eq (sectionLines sec) "" []
        (sectionLines_trimmedNE sec) (Or.inl rfl)
      have henc : encBuf "" = "" := rfl
      rw [henc] at h
      rw [h, List.nil_append]
  · decide

/-- C1 witness: the amended per-section statement applied to the
concrete header-bearing section `"**Note** tail\nplain"`. -/
theorem c1_witness :
    formatSection "**Note** tail\nplain" =
      claimHeaderRun (sectionLines "**Note** tail\nplain") "" :=
  c1_header_sections.1 "**Note** tail\nplain" (by decide)

/-!
C2 — bullet-bearing sections

Two parts of the frozen wording fail on the source:
1. the side condition: the source enters the header branch whenever the
   section merely contains the substring `"**"` (page.tsx line 240),
   even with no complete span present, so a section such as
   `"** x\n* item"` never reaches the bullet branch although it has no
   header span and does have a bullet line;
2. non-bullet prose does not become "a single Paragraph block": each
   maximal run of non-bullet lines is flushed as its own paragraph
   (page.tsx lines 305-311 and 325-331), all of them before the list.
-/

/-- C2 (counterexample to the frozen wording): `"** x\n* item"` has no
complete header span and has a bullet line, yet yields no BulletList at
all; and `"Intro\n* a\nAfter"` yields two Paragraph blocks before the
list, not a single one. -/
theorem c2_counterexample :
    formatAnswer "** x\n* item" = [Block.para "* item"] ∧
    formatAnswer "Intro\n* a\nAfter" =
      [Block.para "Intro", Block.para "After", Block.bulletList ["a"]] := by
  constructor
  · decide
  · decide

/-- C2 (amended): for every section that does not contain the substring
`"**"` and in which some line matches the bullet regex, `format` emits
the section's non-bullet text as one Paragraph block per maximal run of
non-bullet lines, all placed before a single BulletList block holding
every bullet item in original line order.  In particular
`format "Intro text\n* item one\n* item two"` yields
`Paragraph "Intro text"` followed by `BulletList ["item one", "item two"]`. -/
theorem c2_bullet_sections :
    (∀ sec : String, strContains sec "**" = false →
      (sectionLines sec).any (fun l => (bulletMatch l).isSome) = true →
      formatSection sec = claimBulletBlocks (sectionLines sec)) ∧
    formatAnswer "Intro text\n* item one\n* item two" =
      [Block.para "Intro text", Block.bulletList ["item one", "item two"]] := by
  constructor
  · intro sec hns hb
    have hne : ¬ (sectionLines sec).isEmpty = true := by
      intro h
      rw [List.isEmpty_iff] at h
      rw [h] at hb
      simp at hb
    rw [formatSection, if_neg hne, if_neg (by rw [hns]; simp), if_pos hb,
      bulletBlocks, claimBulletBlocks, bulletScan]
    have h := bulletRun_eq (sectionLines sec) "" []
      (sectionLines_trimmedNE sec) (Or.inl rfl)
    have henc : encBuf "" = "" := rfl
    rw [henc] at h
    obtain ⟨hp, hli⟩ := h
    rw [hp, hli]
    rfl
  · decide

/-- C2 witness: the amended per-section statement applied to the
concrete bullet-bearing section `"notes\n- one\n- two"`. -/
theorem c2_witness :
    formatSection "notes\n- one\n- two" =
      claimBulletBlocks (sectionLines "notes\n- one\n- two") :=
  c2_bullet_sections.1 "notes\n- one\n- two" (by decide) (by decide)

/-- C9 (confirmed): the formatter silently drops text.  The non-empty
input `"** hello"` — a section consisting only of a line that contains
`"**"` but no complete span — produces no blocks at all; and inside the
header-bearing section `"**A**\nalpha\n** hello\nbeta"` the unbalanced
line `"** hello"` appears in no output block (it is neither a Heading
nor part of any Paragraph). -/
theorem c9_dropped_text :
    formatAnswer "** hello" = [] ∧
    formatAnswer "**A**\nalpha\n** hello\nbeta" =
      [Block.heading "A", Block.para "alpha", Block.para "beta"] := by
  constructor
  · decide
  · decide

/-! ## Lemmas about the processing loop -/

/-- When every pending request succeeds (no throw — the `success` flag
may still be false), the loop issues every request and ends without an
error. -/
theorem processLoop_ok (oracle : ProcessRequest → Except String ProcessResponse)
    (hw : Bool) :
    ∀ (pending docs : List Document),
      (∀ q ∈ pending, ∀ r, reqOf hw q = some r → exOk (oracle r) = true) →
      (processLoop oracle hw docs pending).calls = pending.filterMap (reqOf hw) ∧
      (processLoop oracle hw docs pending).err = none := by
  intro pending
  induction pending with
  | nil => intro docs _; exact ⟨rfl, rfl⟩
  | cons d rest ih =>
    intro docs hall
    have hrest : ∀ q ∈ rest, ∀ r, reqOf hw q = some r → exOk (oracle r) = true :=
      fun q hq => hall q (List.mem_cons_of_mem d hq)
    cases htp : d.temp_path with
    | none =>
      have hreq : reqOf hw d = none := by rw [reqOf, htp]; rfl
      simp only [processLoop, htp, List.filterMap_cons, hreq]
      exact ih docs hrest
    | some tp =>
      have hreq : reqOf hw d =
          some { file_path := tp, filename := d.name, use_handwriting_ocr := hw } := by
        rw [reqOf, htp]; rfl
      have hok := hall d (List.mem_cons_self d rest) _ hreq
      cases horacle : oracle { file_path := tp, filename := d.name, use_handwriting_ocr := hw } with
      | error e => rw [horacle] at hok; simp [exOk] at hok
      | ok resp =>
        simp only [processLoop, htp, horacle, List.filterMap_cons, hreq]
        obtain ⟨hc, he⟩ := ih _ hrest
        exact ⟨by rw [hc], he⟩

/-- A thrown process error aborts the loop: the issued requests are
those of the documents before the failing one plus the failing request
itself, and the error propagates. -/
theorem processLoop_err (oracle : ProcessRequest → Except String ProcessResponse)
    (hw : Bool) (d : Document) (tp e : String) (post : List Document)
    (htp : d.temp_path = some tp)
    (herr : oracle { file_path := tp, filename := d.name, use_handwriting_ocr := hw } = .error e) :
    ∀ (pre docs : List Document),
      (∀ q ∈ pre, (q.temp_path).isSome = true) →
      (∀ q ∈ pre, ∀ r, reqOf hw q = some r → exOk (oracle r) = true) →
      (processLoop oracle hw docs (pre ++ d :: post)).calls =
        pre.filterMap (reqOf hw) ++
          [{ file_path := tp, filename := d.name, use_handwriting_ocr := hw }] ∧
      (processLoop oracle hw docs (pre ++ d :: post)).err = some e := by
  intro pre
  induction pre with
  | nil =>
    intro docs _ _
    refine ⟨?_, ?_⟩ <;> simp [processLoop, htp, herr]
  | cons p pre' ih =>
    intro docs hpath hok
    have hpsome := hpath p (List.mem_cons_self p pre')
    rw [Option.isSome_iff_exists] at hpsome
    obtain ⟨tpp, htpp⟩ := hpsome
    have hreqp : reqOf hw p =
        some { file_path := tpp, filename := p.name, use_handwriting_ocr := hw } := by
      rw [reqOf, htpp]; rfl
    have hokp := hok p (List.mem_cons_self p pre') _ hreqp
    cases horp : oracle { file_path := tpp, filename := p.name, use_handwriting_ocr := hw } with
    | error e2 => rw [horp] at hokp; simp [exOk] at hokp
    | ok resp =>
      have hpath' : ∀ q ∈ pre', (q.temp_path).isSome = true :=
        fun q hq => hpath q (List.mem_cons_of_mem p hq)
      have hok' : ∀ q ∈ pre', ∀ r, reqOf hw q = some r → exOk (oracle r) = true :=
        fun q hq => hok q (List.mem_cons_of_mem p hq)
      simp only [List.cons_append, processLoop, htpp, horp, List.filterMap_cons, hreqp]
      cases hs : resp.success with
      | true =>
        rw [if_pos rfl]
        obtain ⟨hc, he⟩ := ih
          (docs.map (fun x => if x.id == p.id then { x with processed := true } else x))
          hpath' hok'
        exact ⟨by rw [List.append_eq, hc], by rw [List.append_eq]; exact he⟩
      | false =>
        rw [if_neg (by simp)]
        obtain ⟨hc, he⟩ := ih docs hpath' hok'
        exact ⟨by rw [List.append_eq, hc], by rw [List.append_eq]; exact he⟩

/-- Documents whose id never receives a successful (`success: true`)
response stay unprocessed through the loop. -/
theorem processLoop_keeps (oracle : ProcessRequest → Except String ProcessResponse)
    (hw : Bool) (tid : String) :
    ∀ (pending docs : List Document),
      (∀ y ∈ docs, y.id = tid → y.processed = false) →
      (∀ q ∈ pending, q.id = tid → ∀ r, reqOf hw q = some r →
        notOkTrue (oracle r) = true) →
      ∀ x ∈ (processLoop oracle hw docs pending).docs, x.id = tid →
        x.processed = false := by
  intro pending
  induction pending with
  | nil => intro docs hdocs _; exact hdocs
  | cons d rest ih =>
    intro docs hdocs hq
    have hqrest : ∀ q ∈ rest, q.id = tid → ∀ r, reqOf hw q = some r →
        notOkTrue (oracle r) = true :=
      fun q hmem => hq q (List.mem_cons_of_mem d hmem)
    cases htp : d.temp_path with
    | none =>
      simp only [processLoop, htp]
      exact ih docs hdocs hqrest
    | some tp =>
      have hreq : reqOf hw d =
          some { file_path := tp, filename := d.name, use_handwriting_ocr := hw } := by
        rw [reqOf, htp]; rfl
      cases horacle : oracle { file_path := tp, filename := d.name, use_handwriting_ocr := hw } with
      | error e =>
        simp only [processLoop, htp, horacle]
        exact hdocs
      | ok resp =>
        simp only [processLoop, htp, horacle]
        cases hs : resp.success with
        | false =>
          simp only [Bool.false_eq_true, if_false]
          exact ih docs hdocs hqrest
        | true =>
          simp only [if_true]
          refine ih _ ?_ hqrest
          intro y hy hyid
          rw [List.mem_map] at hy
          obtain ⟨z, hz, hzy⟩ := hy
          by_cases hbeq : z.id == d.id
          · exfalso
            have hzid : z.id = d.id := by
              exact eq_of_beq hbeq
            have hdid : d.id = tid := by
              rw [← hzy] at hyid
              rw [if_pos hbeq] at hyid
              have : z.id = tid := hyid
              rw [← hzid]; exact this
            have hnot := hq d (List.mem_cons_self d rest) hdid _ hreq
            rw [horacle] at hnot
            rw [notOkTrue] at hnot
            rw [hs] at hnot
            simp at hnot
          · have : y = z := by
              rw [← hzy, if_neg (by simpa using hbeq)]
            rw [this]
            apply hdocs z hz
            rw [← this]
            exact hyid

/-- Membership in the pending snapshot unpacks the filter predicate. -/
theorem mem_pendingDocs (s : AppState) (q : Document) (h : q ∈ pendingDocs s) :
    q ∈ s.documents ∧ q.processed = false ∧ q.temp_path.isSome = true := by
  rw [pendingDocs, List.mem_filter] at h
  obtain ⟨hm, hp⟩ := h
  rw [pendPred, Bool.and_eq_true] at hp
  obtain ⟨h1, h2⟩ := hp
  exact ⟨hm, by simpa using h1, h2⟩

/-- Setting the in-flight flag does not change the pending snapshot. -/
theorem pendingDocs_setProcessing (s : AppState) :
    pendingDocs { s with isProcessing := true } = pendingDocs s := rfl

/-!
C3 — status refresh after processing

The frozen claim says `processAll` refreshes DatabaseStatus after its
loop *unconditionally, including executions in which one of the process
calls fails*.  In the source the `getStatus()` call (page.tsx line 154)
sits inside the `try` block after the loop, so a thrown process error
jumps to the `catch` and the refresh is skipped.  The claim is
*corrected*: the refresh is reached exactly in executions in which no
process call throws (a `success: false` payload does not throw and does
not prevent it); when a call throws, DatabaseStatus is left unchanged.
-/

/-- C3 (counterexample to the frozen wording): with one document pending
and a process oracle that throws, the run never reaches the status
refresh, and DatabaseStatus keeps its stale initial value even though
the status oracle would have returned count 7 / "ready". -/
theorem c3_counterexample :
    (handleProcess procFailO (.ok statusOkW) sProcW).statusCalled = false ∧
    (handleProcess procFailO (.ok statusOkW) sProcW).state.databaseStatus =
      { count := 0, status := "unknown" } := by
  constructor
  · decide
  · decide

/-- C3 (amended): `processAll` reaches the DatabaseStatus refresh after
its loop exactly in executions where no process call throws — including
those in which calls return `success: false`; in an execution where some
process call throws (all earlier calls returning without throwing), the
refresh is skipped and DatabaseStatus is left unchanged. -/
theorem c3_status_refresh (oracle : ProcessRequest → Except String ProcessResponse)
    (statusO : Except String StatusResponse) (s : AppState) :
    ((∀ q ∈ pendingDocs s, ∀ r, reqOf s.enableHandwriting q = some r →
        exOk (oracle r) = true) →
      (handleProcess oracle statusO s).statusCalled = true) ∧
    (∀ (pre post : List Document) (d : Document) (tp e : String),
      pendingDocs s = pre ++ d :: post →
      (∀ q ∈ pre, ∀ r, reqOf s.enableHandwriting q = some r → exOk (oracle r) = true) →
      d.temp_path = some tp →
      oracle { file_path := tp, filename := d.name,
               use_handwriting_ocr := s.enableHandwriting } = .error e →
      (handleProcess oracle statusO s).statusCalled = false ∧
      (handleProcess oracle statusO s).state.databaseStatus = s.databaseStatus) := by
  constructor
  · intro hall
    have hok := processLoop_ok oracle s.enableHandwriting (pendingDocs s)
      s.documents hall
    simp only [handleProcess, pendingDocs_setProcessing]
    rw [hok.2]
    cases statusO <;> rfl
  · intro pre post d tp e hsplit hpre htp herr
    have hpath : ∀ q ∈ pre, q.temp_path.isSome = true := by
      intro q hq
      have : q ∈ pendingDocs s := by
        rw [hsplit]
        exact List.mem_append_left _ hq
      exact (mem_pendingDocs s q this).2.2
    have herr2 := processLoop_err oracle s.enableHandwriting d tp e post htp herr
      pre s.documents hpath hpre
    simp only [handleProcess, pendingDocs_setProcessing]
    rw [hsplit, herr2.2]
    exact ⟨rfl, rfl⟩

/-- C3 witness: the two parts applied to a concrete two-document state —
an all-`success:false` run still reaches the refresh, and a throwing run
skips it. -/
theorem c3_witness :
    (handleProcess procOkFalseO (.ok statusOkW) sProcW).statusCalled = true ∧
    ((handleProcess procFailO (.ok statusOkW) sProcW).statusCalled = false ∧
      (handleProcess procFailO (.ok statusOkW) sProcW).state.databaseStatus =
        sProcW.databaseStatus) :=
  ⟨(c3_status_refresh procOkFalseO (.ok statusOkW) sProcW).1
      (by intro q hq r hr; rfl),
    (c3_status_refresh procFailO (.ok statusOkW) sProcW).2
      [] [docW2] docW "/tmp/a.pdf" "boom" (by decide) (by simp) (by decide) rfl⟩

/-- C7 (confirmed): if the external process call throws for one
document, `processAll` aborts the loop — no request is issued for any
later pending document — the error is reported on the console, and the
in-flight `isProcessing` flag is cleared. -/
theorem c7_abort (oracle : ProcessRequest → Except String ProcessResponse)
    (statusO : Except String StatusResponse) (s : AppState)
    (pre post : List Document) (d : Document) (tp e : String)
    (hsplit : pendingDocs s = pre ++ d :: post)
    (hpre : ∀ q ∈ pre, ∀ r, reqOf s.enableHandwriting q = some r →
      exOk (oracle r) = true)
    (htp : d.temp_path = some tp)
    (herr : oracle { file_path := tp, filename := d.name,
                     use_handwriting_ocr := s.enableHandwriting } = .error e) :
    (handleProcess oracle statusO s).calls =
      pre.filterMap (reqOf s.enableHandwriting) ++
        [{ file_path := tp, filename := d.name,
           use_handwriting_ocr := s.enableHandwriting }] ∧
    (handleProcess oracle statusO s).log = ["Processing failed: " ++ e] ∧
    (handleProcess oracle statusO s).state.isProcessing = false := by
  have hpath : ∀ q ∈ pre, q.temp_path.isSome = true := by
    intro q hq
    have : q ∈ pendingDocs s := by
      rw [hsplit]
      exact List.mem_append_left _ hq
    exact (mem_pendingDocs s q this).2.2
  have herr2 := processLoop_err oracle s.enableHandwriting d tp e post htp herr
    pre s.documents hpath hpre
  simp only [handleProcess, pendingDocs_setProcessing]
  rw [hsplit, herr2.2]
  exact ⟨herr2.1, rfl, rfl⟩

/-- C7 witness: with two pending documents and a throwing oracle, only
the first document's request is issued, the failure is logged, and the
processing flag ends cleared. -/
theorem c7_witness :
    (handleProcess procFailO (.ok statusOkW) sProcW).calls =
      [{ file_path := "/tmp/a.pdf", filename := "a.pdf", use_handwriting_ocr := false }] ∧
    (handleProcess procFailO (.ok statusOkW) sProcW).log =
      ["Processing failed: " ++ "boom"] ∧
    (handleProcess procFailO (.ok statusOkW) sProcW).state.isProcessing = false :=
  c7_abort procFailO (.ok statusOkW) sProcW [] [docW2] docW "/tmp/a.pdf" "boom"
    (by decide) (by simp) (by decide) rfl

/-- C10 (confirmed): a process response that arrives without throwing
but carries `success: false` does not abort the batch — when no call
throws, every pending document's request is issued and the status
refresh is reached — and the document that received the `success: false`
response is left with `processed = false`. -/
theorem c10_success_false (oracle : ProcessRequest → Except String ProcessResponse)
    (statusO : Except String StatusResponse) (s : AppState)
    (pre post : List Document) (d : Document) (tp : String) (resp : ProcessResponse)
    (hsplit : pendingDocs s = pre ++ d :: post)
    (hnodup : (s.documents.map (fun x => x.id)).Nodup)
    (htp : d.temp_path = some tp)
    (hd : oracle { file_path := tp, filename := d.name,
                   use_handwriting_ocr := s.enableHandwriting } = .ok resp)
    (hfalse : resp.success = false)
    (hall : ∀ q ∈ pendingDocs s, ∀ r, reqOf s.enableHandwriting q = some r →
      exOk (oracle r) = true) :
    (handleProcess oracle statusO s).calls =
      (pendingDocs s).filterMap (reqOf s.enableHandwriting) ∧
    (handleProcess oracle statusO s).statusCalled = true ∧
    ∀ x ∈ (handleProcess oracle statusO s).state.documents, x.id = d.id →
      x.processed = false := by
  have hdmem : d ∈ pendingDocs s := by
    rw [hsplit]
    exact List.mem_append_right _ (List.mem_cons_self d post)
  obtain ⟨hdin, hdproc, _⟩ := mem_pendingDocs s d hdmem
  have hreqd : reqOf s.enableHandwriting d =
      some { file_path := tp, filename := d.name,
             use_handwriting_ocr := s.enableHandwriting } := by
    rw [reqOf, htp]; rfl
  have hok := processLoop_ok oracle s.enableHandwriting (pendingDocs s)
    s.documents hall
  have hkeep := processLoop_keeps oracle s.enableHandwriting d.id
    (pendingDocs s) s.documents
    (by
      intro y hy hyid
      have : y = d := List.inj_on_of_nodup_map hnodup hy hdin hyid
      rw [this]
      exact hdproc)
    (by
      intro q hq hqid r hr
      have hqd : q = d :=
        List.inj_on_of_nodup_map hnodup (mem_pendingDocs s q hq).1 hdin hqid
      rw [hqd] at hr
      rw [hreqd] at hr
      cases hr
      rw [hd, notOkTrue, hfalse]
      rfl)
  refine ⟨?_, ?_, ?_⟩
  · simp only [handleProcess, pendingDocs_setProcessing]
    rw [hok.2]
    cases statusO <;> exact hok.1
  · simp only [handleProcess, pendingDocs_setProcessing]
    rw [hok.2]
    cases statusO <;> rfl
  · simp only [handleProcess, pendingDocs_setProcessing]
    rw [hok.2]
    cases statusO <;> exact hkeep

/-- C10 witness: with an oracle that always answers `success: false`,
both pending documents are called, the refresh is reached, and the first
document remains unprocessed. -/
theorem c10_witness :
    (handleProcess procOkFalseO (.ok statusOkW) sProcW).calls =
      (pendingDocs sProcW).filterMap (reqOf sProcW.enableHandwriting) ∧
    (handleProcess procOkFalseO (.ok statusOkW) sProcW).statusCalled = true ∧
    ∀ x ∈ (handleProcess procOkFalseO (.ok statusOkW) sProcW).state.documents,
      x.id = docW.id → x.processed = false :=
  c10_success_false procOkFalseO (.ok statusOkW) sProcW [] [docW2] docW
    "/tmp/a.pdf"
    { success := false, message := "no text extracted", filename := "",
      chunks_created := 0, processing_method := "standard", total_characters := none }
    (by decide) (by decide) (by decide) rfl rfl
    (by intro q hq r hr; rfl)

/-! ## Lemmas about identifier preservation -/

/-- The per-id `processed` update does not change identifiers. -/
theorem map_id_update (docs : List Document) (did : String) :
    (docs.map (fun x => if x.id == did then { x with processed := true } else x)).map
      (fun d => d.id) = docs.map (fun d => d.id) := by
  induction docs with
  | nil => rfl
  | cons a l ih =>
    simp only [List.map_cons, ih]
    congr 1
    by_cases h : a.id == did
    · rw [if_pos h]
    · rw [if_neg h]

/-- The processing loop never changes the identifier list. -/
theorem processLoop_ids (oracle : ProcessRequest → Except String ProcessResponse)
    (hw : Bool) :
    ∀ (pending docs : List Document),
      ((processLoop oracle hw docs pending).docs).map (fun d => d.id) =
        docs.map (fun d => d.id) := by
  intro pending
  induction pending with
  | nil => intro docs; rfl
  | cons d rest ih =>
    intro docs
    cases htp : d.temp_path with
    | none => simp only [processLoop, htp]; exact ih docs
    | some tp =>
      cases horacle : oracle { file_path := tp, filename := d.name,
                               use_handwriting_ocr := hw } with
      | error e => simp only [processLoop, htp, horacle]
      | ok resp =>
        simp only [processLoop, htp, horacle]
        cases hs : resp.success with
        | true =>
          rw [if_pos rfl, ih, map_id_update]
        | false =>
          rw [if_neg (by simp)]
          exact ih docs

/-- `handleProcess` never changes the identifier list. -/
theorem handleProcess_ids (oracle : ProcessRequest → Except String ProcessResponse)
    (statusO : Except String StatusResponse) (s : AppState) :
    ((handleProcess oracle statusO s).state.documents).map (fun d => d.id) =
      s.documents.map (fun d => d.id) := by
  simp only [handleProcess, pendingDocs_setProcessing]
  split
  · exact processLoop_ids oracle s.enableHandwriting (pendingDocs s) s.documents
  · split
    · exact processLoop_ids oracle s.enableHandwriting (pendingDocs s) s.documents
    · exact processLoop_ids oracle s.enableHandwriting (pendingDocs s) s.documents

/-- `handleAsk` never touches the document list. -/
theorem handleAsk_documents (oracle : QueryRequest → Except String QueryResponse)
    (idv : String) (now : Nat) (s : AppState) :
    ((handleAsk oracle idv now s).1).documents = s.documents := by
  simp only [handleAsk]
  split
  · rfl
  · split
    · split <;> rfl
    · rfl

/-- `handleResetDatabase` clears the document list or leaves it as is. -/
theorem handleResetDatabase_docs (resetO : Except String ResetResponse)
    (statusO : Except String StatusResponse) (s : AppState) :
    ((handleResetDatabase resetO statusO s).1).documents = [] ∨
    ((handleResetDatabase resetO statusO s).1).documents = s.documents := by
  cases resetO with
  | error e => exact Or.inr rfl
  | ok r =>
    by_cases hs : r.success = true
    · cases statusO with
      | ok st =>
        refine Or.inl ?_
        simp [handleResetDatabase, hs]
      | error e =>
        refine Or.inl ?_
        simp [handleResetDatabase, hs]
    · refine Or.inr ?_
      simp [handleResetDatabase, hs]

/-- The upload loop keeps the identifier lists duplicate-free as long as
the id supply is fresh and long enough. -/
theorem uploadLoop_nodup (upl : InputFile → Except String UploadResponse) (now : Nat) :
    ∀ (fs : List InputFile) (docs : List Document) (ids : List String),
      ((docs.map (fun d => d.id)) ++ ids).Nodup →
      fs.length ≤ ids.length →
      (((uploadLoop upl now fs docs ids).1).map (fun d => d.id)).Nodup := by
  intro fs
  induction fs with
  | nil => intro docs ids h _; exact h.of_append_left
  | cons f fs' ih =>
    intro docs ids h hlen
    cases hu : upl f with
    | ok resp =>
      simp only [uploadLoop, hu]
      cases ids with
      | nil => simp at hlen
      | cons i it =>
        apply ih
        · simpa using h
        · exact Nat.le_of_succ_le_succ hlen
    | error e =>
      simp only [uploadLoop, hu]
      exact ih docs ids h (Nat.le_of_succ_le hlen)

/-- The upload loop calls the upload oracle on exactly its input files,
in order. -/
theorem uploadLoop_calls (upl : InputFile → Except String UploadResponse) (now : Nat) :
    ∀ (fs : List InputFile) (docs : List Document) (ids : List String),
      (uploadLoop upl now fs docs ids).2.2.1 = fs := by
  intro fs
  induction fs with
  | nil => intro docs ids; rfl
  | cons f fs' ih =>
    intro docs ids
    cases hu : upl f with
    | ok resp => simp only [uploadLoop, hu]; rw [ih]
    | error e => simp only [uploadLoop, hu]; rw [ih]

/-- When every upload succeeds the loop logs nothing. -/
theorem uploadLoop_log_ok (upl : InputFile → Except String UploadResponse) (now : Nat) :
    ∀ (fs : List InputFile) (docs : List Document) (ids : List String),
      (∀ f ∈ fs, exOk (upl f) = true) →
      (uploadLoop upl now fs docs ids).2.2.2 = [] := by
  intro fs
  induction fs with
  | nil => intro docs ids _; rfl
  | cons f fs' ih =>
    intro docs ids hall
    have hf := hall f (List.mem_cons_self f fs')
    have hrest : ∀ g ∈ fs', exOk (upl g) = true :=
      fun g hg => hall g (List.mem_cons_of_mem f hg)
    cases hu : upl f with
    | ok resp => simp only [uploadLoop, hu]; exact ih _ _ hrest
    | error e => rw [hu] at hf; simp [exOk] at hf

/-!
C4 — session-state invariants

The frozen claim asserts that no two Document entries ever share an
identifier and that this is preserved by `addFiles`.  Identifiers come
from `Math.random().toString(36).substring(2, 9)` (page.tsx line 112)
with no collision check, so the embedding takes the generated tokens as
an input supply: with a colliding supply — which `Math.random` can
produce — `addFiles` creates two documents with the same id.  The claim
is *corrected*: distinctness is preserved by `processAll`, `ask` and
`resetDatabase` unconditionally, and by `addFiles` provided the supplied
fresh identifiers are mutually distinct and distinct from the existing
ones; the processed-count bound holds in every state unconditionally.
-/

/-- C4 (counterexample to the frozen wording): an id supply that repeats
`"a"` — as `Math.random` may — makes `addFiles` create two documents
with the same identifier, violating the claimed invariant in a state
reached from the initial state by one `addFiles` call. -/
theorem c4_counterexample :
    ¬ (((handleFiles uplOkW ["a", "a"] 0 initialState
        [pdf10W, pdf10W]).state.documents.map (fun d => d.id)).Nodup) := by
  decide

/-- C4 (amended): the number of processed Document entries never exceeds
the total number of entries, in any state; and identifier-distinctness
is preserved by `processAll`, `ask`, and `resetDatabase` always, and by
`addFiles` whenever the supplied fresh identifiers are pairwise distinct,
distinct from all existing ones, and sufficient for the accepted files. -/
theorem c4_invariants :
    (∀ (s : AppState) (oracle : ProcessRequest → Except String ProcessResponse)
        (statusO : Except String StatusResponse),
      (s.documents.map (fun d => d.id)).Nodup →
      ((handleProcess oracle statusO s).state.documents.map (fun d => d.id)).Nodup) ∧
    (∀ (s : AppState) (oracle : QueryRequest → Except String QueryResponse)
        (idv : String) (now : Nat),
      (s.documents.map (fun d => d.id)).Nodup →
      (((handleAsk oracle idv now s).1).documents.map (fun d => d.id)).Nodup) ∧
    (∀ (s : AppState) (resetO : Except String ResetResponse)
        (statusO : Except String StatusResponse),
      (s.documents.map (fun d => d.id)).Nodup →
      (((handleResetDatabase resetO statusO s).1).documents.map (fun d => d.id)).Nodup) ∧
    (∀ (s : AppState) (upl : InputFile → Except String UploadResponse)
        (ids : List String) (now : Nat) (files : List InputFile),
      ((s.documents.map (fun d => d.id)) ++ ids).Nodup →
      (files.filter isValidFile).length ≤ ids.length →
      ((handleFiles upl ids now s files).state.documents.map (fun d => d.id)).Nodup) ∧
    (∀ s : AppState,
      (s.documents.filter (fun d => d.processed)).length ≤ s.documents.length) := by
  refine ⟨?_, ?_, ?_, ?_, ?_⟩
  · intro s oracle statusO h
    rw [handleProcess_ids]
    exact h
  · intro s oracle idv now h
    rw [handleAsk_documents]
    exact h
  · intro s resetO statusO h
    rcases handleResetDatabase_docs resetO statusO s with hd | hd
    · rw [hd]; exact List.nodup_nil
    · rw [hd]; exact h
  · intro s upl ids now files h hlen
    simp only [handleFiles]
    exact uploadLoop_nodup upl now (files.filter isValidFile) s.documents ids h hlen
  · intro s
    exact List.length_filter_le _ _

/-- C4 witness: the invariant parts applied at concrete inputs — a
process run over `sProcW` and an `addFiles` run with a fresh id supply. -/
theorem c4_witness :
    ((handleProcess procOkFalseO (.ok statusOkW) sProcW).state.documents.map
      (fun d => d.id)).Nodup ∧
    ((handleFiles uplOkW ["x", "y"] 0 initialState [pdf10W]).state.documents.map
      (fun d => d.id)).Nodup :=
  ⟨c4_invariants.1 sProcW procOkFalseO (.ok statusOkW) (by decide),
    c4_invariants.2.2.2.1 initialState uplOkW ["x", "y"] 0 [pdf10W]
      (by decide) (by decide)⟩

/-- C5 (confirmed): for a non-blank question, a `success: true` response
stores the answer and prepends a QnAItem carrying the submitted
question; a `success: false` response stores the fixed not-found message
with no history entry; a thrown error stores the fixed error message
with no history entry. -/
theorem c5_ask_outcomes (oracle : QueryRequest → Except String QueryResponse)
    (idv : String) (now : Nat) (s : AppState)
    (hq : jsTrim s.question ≠ "") :
    (∀ resp, oracle { query := s.question, n_results := some 10 } = .ok resp →
      resp.success = true →
      (handleAsk oracle idv now s).1.currentAnswer = resp.answer ∧
      (handleAsk oracle idv now s).1.qnaHistory =
        { id := idv, question := s.question, answer := resp.answer,
          timestamp := now } :: s.qnaHistory) ∧
    (∀ resp, oracle { query := s.question, n_results := some 10 } = .ok resp →
      resp.success = false →
      (handleAsk oracle idv now s).1.currentAnswer = notFoundMessage ∧
      (handleAsk oracle idv now s).1.qnaHistory = s.qnaHistory) ∧
    (∀ e, oracle { query := s.question, n_results := some 10 } = .error e →
      (handleAsk oracle idv now s).1.currentAnswer = errorMessage ∧
      (handleAsk oracle idv now s).1.qnaHistory = s.qnaHistory) := by
  refine ⟨?_, ?_, ?_⟩
  · intro resp ho hs
    simp [handleAsk, hq, ho, hs]
  · intro resp ho hs
    simp [handleAsk, hq, ho, hs]
  · intro e ho
    simp [handleAsk, hq, ho]

/-- C5 witness: the success case applied to a concrete state with the
question `"what is this?"` and an oracle answering `"the answer"`. -/
theorem c5_witness :
    (handleAsk queryOkW "q9" 5 sAskW).1.currentAnswer = "the answer" ∧
    (handleAsk queryOkW "q9" 5 sAskW).1.qnaHistory =
      [{ id := "q9", question := "what is this?", answer := "the answer",
         timestamp := 5 }] :=
  (c5_ask_outcomes queryOkW "q9" 5 sAskW (by decide)).1
    { success := true, query := "what is this?", answer := "the answer",
      retrieved_documents := [], relevant_document_ids := [], context_used := "" }
    rfl rfl

/-!
C6 — resetDatabase

The frozen claim couples the clearing and the DatabaseStatus refresh
("clears … and then refreshes … exactly when the reset call returns
success").  In the source the `getStatus()` refresh (page.tsx line 175)
sits inside the same `try` after the clearing: if the reset succeeds but
the status call throws, the state is cleared yet DatabaseStatus keeps
its stale value (and the error is logged).  The claim is *corrected*
accordingly; additionally, a reset response with `success: false`
changes nothing and logs nothing.
-/

/-- C6 (counterexample to the frozen wording): reset returns success and
the state is cleared, but — the status call throwing — DatabaseStatus
keeps its stale pre-reset value `⟨3, "healthy"⟩`, so "clears and then
refreshes exactly when the reset call returns success" fails. -/
theorem c6_counterexample :
    (handleResetDatabase (.ok resetOkW) (.error "status down") sResetW).1.documents = [] ∧
    (handleResetDatabase (.ok resetOkW) (.error "status down") sResetW).1.qnaHistory = [] ∧
    (handleResetDatabase (.ok resetOkW) (.error "status down") sResetW).1.currentAnswer = "" ∧
    (handleResetDatabase (.ok resetOkW) (.error "status down") sResetW).1.databaseStatus =
      { count := 3, status := "healthy" } := by
  refine ⟨?_, ?_, ?_, ?_⟩ <;> decide

/-- C6 (amended): `resetDatabase` clears Documents, Q&A history and the
current answer exactly when the reset call returns `success: true`, and
then attempts the status refresh — the refresh takes effect only when
the status call also succeeds; when the status call throws the cleared
state remains with a stale DatabaseStatus and the error is logged.  When
the reset call throws, state is unchanged and the error is only logged;
when it returns `success: false`, state is unchanged and nothing is
logged. -/
theorem c6_reset_outcomes (resetO : Except String ResetResponse)
    (statusO : Except String StatusResponse) (s : AppState) :
    (∀ r st, resetO = .ok r → r.success = true → statusO = .ok st →
      handleResetDatabase resetO statusO s =
        ({ s with documents := [], qnaHistory := [], currentAnswer := "",
                  databaseStatus := { count := st.document_count,
                                      status := st.database_status } }, [])) ∧
    (∀ r e, resetO = .ok r → r.success = true → statusO = .error e →
      handleResetDatabase resetO statusO s =
        ({ s with documents := [], qnaHistory := [], currentAnswer := "" },
          ["Reset failed: " ++ e])) ∧
    (∀ r, resetO = .ok r → r.success = false →
      handleResetDatabase resetO statusO s = (s, [])) ∧
    (∀ e, resetO = .error e →
      handleResetDatabase resetO statusO s = (s, ["Reset failed: " ++ e])) := by
  refine ⟨?_, ?_, ?_, ?_⟩
  · intro r st hr hs hst
    subst hr; subst hst
    simp only [handleResetDatabase, hs, if_true]
  · intro r e hr hs hst
    subst hr; subst hst
    simp only [handleResetDatabase, hs, if_true]
  · intro r hr hs
    subst hr
    simp only [handleResetDatabase, hs, Bool.false_eq_true, if_false]
  · intro e hr
    subst hr
    simp only [handleResetDatabase]

/-- C6 witness: the all-success case applied to the populated state
`sResetW`: documents, history and answer are cleared and the status is
re-fetched. -/
theorem c6_witness :
    handleResetDatabase (.ok resetOkW) (.ok statusOkW) sResetW =
      ({ sResetW with documents := [], qnaHistory := [], currentAnswer := "",
                      databaseStatus := { count := 7, status := "ready" } }, []) :=
  (c6_reset_outcomes (.ok resetOkW) (.ok statusOkW) sResetW).1
    resetOkW statusOkW rfl rfl rfl

/-- C8 (confirmed): `addFiles` accepts exactly the input files whose
MIME type is `"application/pdf"` and whose size is at most
`200 * 1024 * 1024` bytes — those and only those reach the upload call,
in order; dropped files surface no error (with all uploads succeeding
nothing is logged at all); and of [10MB PDF, 5MB txt, 250MB PDF] only
the 10MB PDF reaches the upload call. -/
theorem c8_filter (upl : InputFile → Except String UploadResponse)
    (ids : List String) (now : Nat) (s : AppState) (files : List InputFile) :
    (handleFiles upl ids now s files).calls = files.filter isValidFile ∧
    ((∀ f ∈ files.filter isValidFile, exOk (upl f) = true) →
      (handleFiles upl ids now s files).log = []) ∧
    (handleFiles uplOkW ["w1"] 0 initialState [pdf10W, txt5W, pdf250W]).calls =
      [pdf10W] := by
  refine ⟨?_, ?_, ?_⟩
  · simp only [handleFiles]
    exact uploadLoop_calls upl now (files.filter isValidFile) s.documents ids
  · intro hall
    simp only [handleFiles]
    exact uploadLoop_log_ok upl now (files.filter isValidFile) s.documents ids hall
  · decide

/-- C8 witness: with an always-succeeding upload oracle no error is
logged for the dropped files of the concrete example. -/
theorem c8_witness :
    (handleFiles uplOkW ["w1"] 0 initialState [pdf10W, txt5W, pdf250W]).log = [] :=
  (c8_filter uplOkW ["w1"] 0 initialState [pdf10W, txt5W, pdf250W]).2.1
    (by intro f hf; rfl)

end Ragify
